import Mathlib

/-!
Verification of the concurrency/lifecycle core of the WatchBeam rtmp
repository: the generic message-stream demultiplexer (data.Stream.Recv,
control.Stream.Recv, stream.NetStream.Listen) and the TCP Server accept
loop with its shutdown state machine (server.Server).

The Go code is shallowly embedded: each lock-protected critical section
becomes one pure function, channel traffic becomes explicit event lists,
and a Go panic (nil-interface method call, send on a closed channel)
becomes an explicit `none` / `panics` outcome.
-/

/-- Names of the three internal channels of a message stream
(`s.in`, `s.errs`, `s.closer` in data/stream.go, and likewise in the
control and NetStream flavors). -/
inductive StreamChan where
  | inCh
  | errsCh
  | closerCh
deriving DecidableEq, Repr

/-- One resolution of the `select` statement in the run loop
(data.Stream.Recv / control.Stream.Recv / NetStream.Listen):
either the chunk-channel case fires (`recv c`, where `c = none` models a
receive from a closed chunk channel, which in Go yields the zero value
nil immediately), or the closer case fires (`closeSig`). -/
inductive SelEv (χ : Type) where
  | recv (c : Option χ)
  | closeSig
deriving DecidableEq, Repr

/-- Observable outcome of a run loop fed a finite schedule of select
resolutions: the messages sent on `in`, the errors sent on `errs`, in
order, whether the loop returned, and which channels its deferred
cleanup closed. -/
structure RecvOut (μ ε : Type) where
  msgs : List μ
  errs : List ε
  exited : Bool
  closedChans : List StreamChan
deriving DecidableEq, Repr

/-- The deferred cleanup of the run loop:
close(s.in); close(s.errs); close(s.closer). -/
def streamCloseOrder : List StreamChan :=
  [StreamChan.inCh, StreamChan.errsCh, StreamChan.closerCh]

/-- Embedding of the shared run-loop body of data.Stream.Recv,
control.Stream.Recv and stream.NetStream.Listen for delivered (non-nil)
chunks.  Each iteration selects over the chunk channel and the closer
channel.  On a chunk, `parse` (the stream's `s.parser.Parse`) either
fails, in which case the error is sent on `errs` and the loop
continues, or succeeds, in which case the message is sent on `in`.  On
the close signal the loop returns and the deferred closes run.  An
empty remaining schedule means the loop is still blocked in the
select.  On a nil chunk (`recv none`, a receive from a closed chunk
channel) this function embeds data.Stream.Recv and control.Stream.Recv,
which hand the nil pointer to `s.parser.Parse`; NetStream.Listen
dereferences the nil chunk before its parser runs and is embedded
separately by `listenLoop`. -/
def recvLoop {χ ε μ : Type} (parse : Option χ → Except ε μ) :
    List (SelEv χ) → RecvOut μ ε
  | [] => ⟨[], [], false, []⟩
  | SelEv.closeSig :: _ => ⟨[], [], true, streamCloseOrder⟩
  | SelEv.recv c :: rest =>
    match parse c with
    | Except.error e =>
      let r := recvLoop parse rest
      ⟨r.msgs, e :: r.errs, r.exited, r.closedChans⟩
    | Except.ok m =>
      let r := recvLoop parse rest
      ⟨m :: r.msgs, r.errs, r.exited, r.closedChans⟩

/-- Error component of a parse result. -/
def errPart {ε μ : Type} : Except ε μ → Option ε
  | Except.error e => some e
  | Except.ok _ => none

/-- State of the stream's `closer` channel as seen by a caller of
Close(): either the run loop is still running (so the unbuffered channel
has a receiver), or the run loop has exited and its deferred
close(s.closer) has run. -/
inductive CloserChan where
  | openReceiving
  | closedByLoop
deriving DecidableEq, Repr

/-- Possible outcomes of the statement `s.closer <- struct{}{}` in
Stream.Close. -/
inductive COutcome where
  | returnsAfterRendezvous
  | blocksForever
  | panics
deriving DecidableEq, Repr

/-- Embedding of Stream.Close, `func (s *Stream) Close() { s.closer <- struct{}{} }`,
per Go channel semantics: a send on an open unbuffered channel blocks
until a receiver takes the value and then returns (synchronous
rendezvous with the run loop's select); a send on a closed channel
panics. -/
def closerSend : CloserChan → COutcome
  | CloserChan.openReceiving => COutcome.returnsAfterRendezvous
  | CloserChan.closedByLoop => COutcome.panics

/-- A parser that fails on a nil chunk and succeeds otherwise, used to
exercise the run loop on a closed (exhausted) chunk channel. -/
def nilFailParse : Option Unit → Except Unit Unit
  | none => Except.error ()
  | some _ => Except.ok ()

/-- Two consecutive receives from a closed chunk channel (each yields
the zero value nil immediately). -/
def exhaustedTrace : List (SelEv Unit) :=
  [SelEv.recv none, SelEv.recv none]

/-- Observable outcome of NetStream.Listen on a finite schedule of
select resolutions: the commands sent on `in`, the errors sent on
`errs`, whether the loop exited normally via the close signal, whether
the goroutine died by panic, and which channels the deferred cleanup
closed (defers also run while a panic unwinds). -/
structure ListenOut (μ ε : Type) where
  msgs : List μ
  errs : List ε
  exited : Bool
  panicked : Bool
  closedChans : List StreamChan
deriving DecidableEq, Repr

/-- Embedding of stream.NetStream.Listen.  Its chunk case is
`cmd, err := n.parser.Parse(bytes.NewReader(chunk.Data))`: the field
selector chunk.Data is evaluated before the parser, so on a receive
from a closed chunk channel (which yields a nil *chunk.Chunk) the
goroutine panics with a nil-pointer dereference; the deferred
close(n.in); close(n.errs); close(n.closer) then run while the panic
unwinds.  On a delivered chunk the loop matches recvLoop: parse
failure goes to errs and the loop continues, success goes to in; the
close signal exits the loop and runs the same deferred closes. -/
def listenLoop {χ ε μ : Type} (parse : χ → Except ε μ) :
    List (SelEv χ) → ListenOut μ ε
  | [] => ⟨[], [], false, false, []⟩
  | SelEv.closeSig :: _ => ⟨[], [], true, false, streamCloseOrder⟩
  | SelEv.recv none :: _ => ⟨[], [], false, true, streamCloseOrder⟩
  | SelEv.recv (some c) :: rest =>
    match parse c with
    | Except.error e =>
      let r := listenLoop parse rest
      ⟨r.msgs, e :: r.errs, r.exited, r.panicked, r.closedChans⟩
    | Except.ok m =>
      let r := listenLoop parse rest
      ⟨m :: r.msgs, r.errs, r.exited, r.panicked, r.closedChans⟩

/-- A parser on delivered chunks that always succeeds, used to exercise
NetStream.Listen on a closed chunk channel (its parser is never reached
there). -/
def okParse : Unit → Except Unit Unit := fun _ => Except.ok ()

/-- Internal server state, `type state uint8` in server/server.go. -/
inductive SState where
  | idle
  | accepting
  | closing
  | releasing
  | closed
deriving DecidableEq, Repr

/-- Forward progress measure on server states, matching the diagram
idle → accepting → {closing, releasing} → closed. -/
def rank : SState → Nat
  | SState.idle => 0
  | SState.accepting => 1
  | SState.closing => 2
  | SState.releasing => 2
  | SState.closed => 3

/-- Abstraction of a Go error value as seen by Server.handleError:
whether it implements net.Error, the results of its Timeout() and
Temporary() methods, and its Error() message text. -/
structure AErr where
  isNet : Bool
  timeout : Bool
  temporary : Bool
  msg : String
deriving DecidableEq, Repr

/-- Tests whether `pat` is a prefix of the second list. -/
def leadsWith : List Char → List Char → Bool
  | [], _ => true
  | _ :: _, [] => false
  | a :: as, b :: bs => a == b && leadsWith as bs

/-- Tests whether `pat` occurs as a contiguous substring, the semantics
of Go's strings.Contains. -/
def strContains (pat : List Char) : List Char → Bool
  | [] => leadsWith pat []
  | c :: t => leadsWith pat (c :: t) || strContains pat t

/-- The substring matched by server/error.go. -/
def netClosePhrase : String := "use of closed network connection"

/-- Embedding of isNetCloseError (server/error.go):
strings.Contains(err.Error(), "use of closed network connection"). -/
def isNetCloseError (e : AErr) : Bool :=
  strContains netClosePhrase.toList e.msg.toList

/-- One value sent on the server's errs channel: the error together
with whether it was wrapped in fatalError (whose IsFatal() returns
true). -/
structure Emission where
  err : AErr
  isFatal : Bool
deriving DecidableEq, Repr

/-- Result of one handleError call: the emissions sent on errs in
order, and either `some kill` (the returned bool) or `none` when the
call panics (a method call on a nil net.Error interface). -/
structure HRes where
  emits : List Emission
  out : Option Bool
deriving DecidableEq, Repr

/-- Third stage of handleError: `if nerr.Temporary() { s.errs <- err; return false }`
then `s.errs <- fatalError{err}; return true`.  When the original error
did not implement net.Error, `nerr` is the nil interface and
nerr.Temporary() panics. -/
def handleErrorTempStage (e : AErr) (pre : List Emission) : HRes :=
  if e.isNet then
    if e.temporary then ⟨pre ++ [⟨e, false⟩], some false⟩
    else ⟨pre ++ [⟨e, true⟩], some true⟩
  else ⟨pre, none⟩

/-- Second stage of handleError: `if s.state == closing && isNetCloseError(nerr) { return true }`.
Go's && short-circuits, so isNetCloseError(nerr) (which calls
nerr.Error()) is only evaluated when the state is closing; on a nil
nerr it panics. -/
def handleErrorCloseStage (st : SState) (e : AErr) (pre : List Emission) : HRes :=
  if st = SState.closing then
    if e.isNet then
      if isNetCloseError e then ⟨pre, some true⟩
      else handleErrorTempStage e pre
    else ⟨pre, none⟩
  else handleErrorTempStage e pre

/-- Embedding of Server.handleError (server/server.go).  First
`nerr, ok := err.(net.Error)`; if the assertion fails the error is sent
on errs as-is (`pre`).  Then `if s.state == releasing && nerr.Timeout() { return true }`,
where nerr.Timeout() on a nil interface panics; the remaining stages
follow. -/
def handleError (st : SState) (e : AErr) : HRes :=
  let pre : List Emission := if e.isNet then [] else [⟨e, false⟩]
  if st = SState.releasing then
    if e.isNet then
      if e.timeout then ⟨pre, some true⟩
      else handleErrorCloseStage st e pre
    else ⟨pre, none⟩
  else handleErrorCloseStage st e pre

/-- Error returned by net.TCPListener.Close when the listener is
already closed. -/
inductive SockErr where
  | useOfClosed
deriving DecidableEq, Repr

/-- State of one Server value: its state field, whether the underlying
listener socket has been closed, whether a deadline equal to now has
been set on the listener, and the identity of the listener handle the
server was constructed with. -/
structure Srv where
  st : SState
  socketClosed : Bool
  deadlineSet : Bool
  socketId : Nat
deriving DecidableEq, Repr

/-- Embedding of NewSocket (server/server.go): state idle, listener
open, no deadline set. -/
def initSrv (n : Nat) : Srv :=
  ⟨SState.idle, false, false, n⟩

/-- Execution of one Server.Close call: its return value, the server
after Close's own mutation under the lock, and whether Close then
blocks in waitForState(closed) before returning. -/
structure CloseExec where
  res : Except SockErr Unit
  after : Srv
  waits : Bool
deriving Repr

/-- Embedding of Server.Close (server/server.go).  Under the lock:
`if err := s.socket.Close(); err != nil { return err }` — closing an
already-closed TCP listener fails, so the call returns the error with
no state change; then `if s.state != accepting { s.state = closed; return nil }`;
otherwise `s.state = closing; s.waitForState(closed)`. -/
def serverClose (s : Srv) : CloseExec :=
  if s.socketClosed then ⟨Except.error SockErr.useOfClosed, s, false⟩
  else
    let s1 : Srv := ⟨s.st, true, s.deadlineSet, s.socketId⟩
    if s.st ≠ SState.accepting then
      ⟨Except.ok (), ⟨SState.closed, true, s.deadlineSet, s.socketId⟩, false⟩
    else ⟨Except.ok (), ⟨SState.closing, s1.socketClosed, s1.deadlineSet, s1.socketId⟩, true⟩

/-- Execution of one Server.Release call: the listener handle it
returns, the server after Release's own mutation under the lock, and
whether Release then blocks in waitForState(closed). -/
structure ReleaseExec where
  ret : Nat
  after : Srv
  waits : Bool
deriving DecidableEq, Repr

/-- Embedding of Server.Release (server/server.go).  Under the lock:
`if s.state != accepting { s.state = closed; return s.socket }`;
otherwise `s.state = releasing; s.socket.SetDeadline(time.Now()); s.waitForState(closed)`
and then return s.socket.  The socket is never closed here. -/
def serverRelease (s : Srv) : ReleaseExec :=
  if s.st ≠ SState.accepting then
    ⟨s.socketId, ⟨SState.closed, s.socketClosed, s.deadlineSet, s.socketId⟩, false⟩
  else
    ⟨s.socketId, ⟨SState.releasing, s.socketClosed, true, s.socketId⟩, true⟩

/-- The atomic, lock-protected state mutations that Accept, Close and
Release can perform on a Server, in any interleaving:
Accept's entry `setStateIf(accepting, v == idle)`, Accept's deferred
`setState(closed)`, Close's mutation and Release's mutation. -/
inductive SAction where
  | acceptEntry
  | acceptExit
  | closeMut
  | releaseMut
deriving DecidableEq, Repr

/-- Effect of one atomic action on the server. -/
def applyAction (s : Srv) : SAction → Srv
  | SAction.acceptEntry =>
    if s.st = SState.idle then ⟨SState.accepting, s.socketClosed, s.deadlineSet, s.socketId⟩
    else s
  | SAction.acceptExit => ⟨SState.closed, s.socketClosed, s.deadlineSet, s.socketId⟩
  | SAction.closeMut => (serverClose s).after
  | SAction.releaseMut => (serverRelease s).after

/-- Effect of a sequence of atomic actions. -/
def applyActions (s : Srv) : List SAction → Srv
  | [] => s
  | a :: rest => applyActions (applyAction s a) rest

/-- Server states reachable from construction with listener handle `n`
under any interleaving of the atomic actions. -/
inductive Reachable (n : Nat) : Srv → Prop
  | init : Reachable n (initSrv n)
  | step (s : Srv) (a : SAction) : Reachable n s → Reachable n (applyAction s a)

/-- The edges of the state diagram in server/server.go, including the
fast paths straight to closed. -/
def edgeOk : SState → SState → Bool
  | SState.idle, SState.accepting => true
  | SState.idle, SState.closed => true
  | SState.accepting, SState.closing => true
  | SState.accepting, SState.releasing => true
  | SState.accepting, SState.closed => true
  | SState.closing, SState.closed => true
  | SState.releasing, SState.closed => true
  | _, _ => false

/-- Names of the three channels of a Server: clients, errs and the
release signal channel. -/
inductive ServerChan where
  | clientsCh
  | errsCh
  | releaseCh
deriving DecidableEq, Repr

/-- One iteration outcome of `s.socket.Accept()` inside the accept
loop: either a connection was accepted, or it failed with an error;
`st` is the server state held when handleError runs (it may have been
changed concurrently by Close or Release). -/
inductive AEv where
  | conn
  | aerr (st : SState) (e : AErr)
deriving DecidableEq, Repr

/-- Observable outcome of the accept loop on a finite schedule of
accept results: how many clients were sent on the clients channel, the
emissions on errs, whether the goroutine terminated, whether it
terminated by panic, and which of the server's channels its exit path
closed. -/
structure AcceptOut where
  clients : Nat
  emits : List Emission
  terminated : Bool
  panicked : Bool
  closedChans : List ServerChan
deriving DecidableEq, Repr

/-- Embedding of the loop body of Server.Accept (server/server.go).
On success the client is sent on the clients channel; on error
handleError decides.  When handleError returns kill = true the loop
returns and only the deferred setState(closed) runs — Accept closes
none of the server's channels on any exit path.  When handleError
panics, the panic propagates (defers still close no channel). -/
def acceptRun : List AEv → AcceptOut
  | [] => ⟨0, [], false, false, []⟩
  | AEv.conn :: rest =>
    let r := acceptRun rest
    ⟨r.clients + 1, r.emits, r.terminated, r.panicked, r.closedChans⟩
  | AEv.aerr st e :: rest =>
    let h := handleError st e
    match h.out with
    | none => ⟨0, h.emits, true, true, []⟩
    | some true => ⟨0, h.emits, true, false, []⟩
    | some false =>
      let r := acceptRun rest
      ⟨r.clients, h.emits ++ r.emits, r.terminated, r.panicked, r.closedChans⟩

/-- A non-temporary network error, e.g. a hard accept failure. -/
def e_fatal : AErr := ⟨true, false, false, "accept tcp: unexpected failure"⟩

/-- A timeout network error, as produced by an accept deadline expiry
(timeouts are also temporary in the net package). -/
def e_timeoutR : AErr := ⟨true, true, true, "i/o timeout"⟩

/-- A temporary network error, e.g. transient resource exhaustion. -/
def e_temp : AErr := ⟨true, false, true, "accept tcp: too many open files"⟩

/-- The error an accept call fails with after the listener was closed. -/
def e_closeMsg : AErr :=
  ⟨true, false, false, "accept tcp 127.0.0.1:1935: use of closed network connection"⟩

/-- An error value that does not implement net.Error. -/
def e_nonnet : AErr := ⟨false, false, false, "foo"⟩

/-- The server after one completed Close from the constructed state. -/
def srvClosedOnce : Srv := applyAction (initSrv 0) SAction.closeMut

/-- The server after Accept entered and a first Close ran while
accepting: state closing, listener closed, Close still waiting. -/
def srvClosing : Srv :=
  applyAction (applyAction (initSrv 0) SAction.acceptEntry) SAction.closeMut

/-- A server with a running accept loop, constructed with listener 7. -/
def srvAccepting7 : Srv := applyAction (initSrv 7) SAction.acceptEntry

/-- A run loop's deferred closes run exactly when the loop exits. -/
theorem recvLoop_closedChans {χ ε μ : Type} (parse : Option χ → Except ε μ)
    (evs : List (SelEv χ)) :
    (recvLoop parse evs).closedChans
      = (if (recvLoop parse evs).exited then streamCloseOrder else []) := by
  induction evs with
  | nil => rfl
  | cons e rest ih =>
    cases e with
    | closeSig => rfl
    | recv c =>
      cases h : parse c <;> (simp [recvLoop, h]; exact ih)

/-- The accept loop closes no channel on any exit path. -/
theorem acceptRun_closedChans (evs : List AEv) :
    (acceptRun evs).closedChans = [] := by
  induction evs with
  | nil => rfl
  | cons e rest ih =>
    cases e with
    | conn => simpa [acceptRun] using ih
    | aerr st er =>
      cases h : (handleError st er).out with
      | none => simp [acceptRun, h]
      | some kill => cases kill <;> simp_all [acceptRun, h]

/-- C1: for every finite sequence of Chunks delivered to a
MessageStream's run loop (data Recv, control Recv, NetStream Listen),
each Chunk whose parse succeeds yields exactly one Message on the
produced-message feed and each Chunk whose parse fails yields exactly
one error on the error feed and no message; each feed preserves Chunk
arrival order; a parse failure does not terminate the loop; and the
total activity across the two feeds equals the number of Chunks
delivered. -/
theorem c1_message_stream_feeds {χ ε μ : Type} (parse : Option χ → Except ε μ)
    (cs : List χ) :
    (recvLoop parse (cs.map (fun c => SelEv.recv (some c)))).msgs
        = cs.filterMap (fun c => (parse (some c)).toOption)
    ∧ (recvLoop parse (cs.map (fun c => SelEv.recv (some c)))).errs
        = cs.filterMap (fun c => errPart (parse (some c)))
    ∧ (recvLoop parse (cs.map (fun c => SelEv.recv (some c)))).msgs.length
        + (recvLoop parse (cs.map (fun c => SelEv.recv (some c)))).errs.length
        = cs.length
    ∧ (recvLoop parse (cs.map (fun c => SelEv.recv (some c)))).exited = false := by
  induction cs with
  | nil => exact ⟨rfl, rfl, rfl, rfl⟩
  | cons c rest ih =>
    obtain ⟨ih1, ih2, ih3, ih4⟩ := ih
    cases h : parse (some c) with
    | error e =>
      refine ⟨?_, ?_, ?_, ?_⟩
      · simpa [recvLoop, h, Except.toOption] using ih1
      · simpa [recvLoop, h, errPart, Except.toOption] using ih2
      · simp [recvLoop, h]
        omega
      · simpa [recvLoop, h] using ih4
    | ok m =>
      refine ⟨?_, ?_, ?_, ?_⟩
      · simpa [recvLoop, h, Except.toOption] using ih1
      · simpa [recvLoop, h, errPart, Except.toOption] using ih2
      · simp [recvLoop, h]
        omega
      · simpa [recvLoop, h] using ih4

/-- C5 counterexample: once the run loop has exited, its deferred
cleanup has closed the closer channel, so the send inside Close()
panics — it does not block forever as the claim states. -/
theorem c5_close_after_exit_cex :
    closerSend CloserChan.closedByLoop = COutcome.panics
    ∧ closerSend CloserChan.closedByLoop ≠ COutcome.blocksForever := by
  decide

/-- C5 (amended): while the run loop is receiving, Close() performs a
synchronous rendezvous hand-off of exactly one close signal and
returns after the loop takes it; the loop, on receiving that signal,
exits immediately and runs its deferred closes; but if the run loop
has already exited, the closer channel is closed and Close() panics
(send on a closed channel) instead of never returning. -/
theorem c5_close_rendezvous_amended :
    closerSend CloserChan.openReceiving = COutcome.returnsAfterRendezvous
    ∧ closerSend CloserChan.closedByLoop = COutcome.panics
    ∧ ∀ (χ ε μ : Type) (parse : Option χ → Except ε μ) (evs : List (SelEv χ)),
        recvLoop parse (SelEv.closeSig :: evs) = ⟨[], [], true, streamCloseOrder⟩ := by
  exact ⟨rfl, rfl, fun χ ε μ parse evs => rfl⟩

/-- C7 counterexample: with the chunk channel closed (each receive
yields the zero-value nil chunk immediately) and no close signal, the
data/control run loop does not terminate and closes no feed; it keeps
invoking the parser on nil chunks, here producing one error per
receive. -/
theorem c7_exhausted_source_cex :
    (recvLoop nilFailParse exhaustedTrace).exited = false
    ∧ (recvLoop nilFailParse exhaustedTrace).closedChans = []
    ∧ (recvLoop nilFailParse exhaustedTrace).errs = [(), ()] := by
  decide

/-- A run-loop schedule without the close signal never makes the
data/control loop exit. -/
theorem recvLoop_no_close_no_exit {χ ε μ : Type}
    (parse : Option χ → Except ε μ) (evs : List (SelEv χ))
    (h : SelEv.closeSig ∉ evs) :
    (recvLoop parse evs).exited = false := by
  induction evs with
  | nil => rfl
  | cons e rest ih =>
    have he : e ≠ SelEv.closeSig := fun hc => h (hc ▸ List.mem_cons_self e rest)
    have hrest : SelEv.closeSig ∉ rest := fun hc => h (List.mem_cons_of_mem e hc)
    cases e with
    | closeSig => exact absurd rfl he
    | recv c => cases hp : parse c <;> simp [recvLoop, hp] <;> exact ih hrest

/-- C7 (amended): the two flavor families of run loop react differently
to an exhausted (closed and drained) ChunkSource.  In data.Stream.Recv
and control.Stream.Recv, receives from the closed channel yield nil
chunks that are handed to the parser and the loop itself never exits
without the close signal (whether the goroutine survives depends on the
parser's reaction to the nil chunk, not on the loop).  In
stream.NetStream.Listen the first receive from the closed channel
panics dereferencing the nil chunk before the parser runs: the task
terminates abnormally, emitting no message and no error, and the
deferred closes close the output feeds while the panic unwinds — a
panic, not the claimed clean loop exit. -/
theorem c7_exhausted_source_amended :
    (∀ (χ ε μ : Type) (parse : Option χ → Except ε μ) (evs : List (SelEv χ)),
        SelEv.closeSig ∉ evs → (recvLoop parse evs).exited = false)
    ∧ (∀ (χ ε μ : Type) (parse : χ → Except ε μ) (evs : List (SelEv χ)),
        (listenLoop parse (SelEv.recv none :: evs)).panicked = true
        ∧ (listenLoop parse (SelEv.recv none :: evs)).exited = false
        ∧ (listenLoop parse (SelEv.recv none :: evs)).closedChans = streamCloseOrder
        ∧ (listenLoop parse (SelEv.recv none :: evs)).msgs = []
        ∧ (listenLoop parse (SelEv.recv none :: evs)).errs = []) := by
  exact ⟨fun χ ε μ parse evs h => recvLoop_no_close_no_exit parse evs h,
    fun χ ε μ parse evs => ⟨rfl, rfl, rfl, rfl, rfl⟩⟩

/-- C7 witness: the amended theorem applied to the concrete exhausted
data/control trace and to a Listen schedule whose first receive comes
from the closed channel. -/
theorem c7_exhausted_source_amended_witness :
    SelEv.closeSig ∉ exhaustedTrace
    ∧ (recvLoop nilFailParse exhaustedTrace).exited = false
    ∧ (listenLoop okParse [SelEv.recv none]).panicked = true
    ∧ (listenLoop okParse [SelEv.recv none]).closedChans = streamCloseOrder :=
  ⟨by decide,
   c7_exhausted_source_amended.1 Unit Unit Unit nilFailParse exhaustedTrace (by decide),
   (c7_exhausted_source_amended.2 Unit Unit Unit okParse []).1,
   (c7_exhausted_source_amended.2 Unit Unit Unit okParse []).2.2.1⟩

/-- C2 counterexample: the Server's Accept task, terminating through
its fatal-error exit path, closes none of the server's channels — the
clients feed, the errs feed and the release channel all remain open,
contrary to the claim that all three are closed on task exit. -/
theorem c2_server_accept_closes_nothing_cex :
    (acceptRun [AEv.aerr SState.accepting e_fatal]).terminated = true
    ∧ (acceptRun [AEv.aerr SState.accepting e_fatal]).closedChans = []
    ∧ ServerChan.errsCh ∉ (acceptRun [AEv.aerr SState.accepting e_fatal]).closedChans
    ∧ ServerChan.clientsCh ∉ (acceptRun [AEv.aerr SState.accepting e_fatal]).closedChans
    ∧ ServerChan.releaseCh ∉ (acceptRun [AEv.aerr SState.accepting e_fatal]).closedChans := by
  decide

/-- C2 (amended): for the MessageStream flavors, when the run task
terminates it closes the produced-message feed, the error feed and the
close-signal channel, each exactly once, and closes nothing while still
running; the Server's Accept task, by contrast, closes none of its
three channels (clients, errs, release) on any exit path. -/
theorem c2_feeds_close_amended :
    (∀ (χ ε μ : Type) (parse : Option χ → Except ε μ) (evs : List (SelEv χ)),
        ((recvLoop parse evs).exited = true →
          ∀ ch : StreamChan, ((recvLoop parse evs).closedChans).count ch = 1)
        ∧ ((recvLoop parse evs).exited = false →
          (recvLoop parse evs).closedChans = []))
    ∧ ∀ evs : List AEv, (acceptRun evs).closedChans = [] := by
  refine ⟨fun χ ε μ parse evs => ⟨fun hex ch => ?_, fun hex => ?_⟩,
    fun evs => acceptRun_closedChans evs⟩
  · rw [recvLoop_closedChans parse evs, hex]
    cases ch <;> rfl
  · rw [recvLoop_closedChans parse evs, hex]
    rfl

/-- C2 witness: the amended theorem applied at a concrete exiting
stream trace and a concrete accept trace. -/
theorem c2_feeds_close_amended_witness :
    (recvLoop nilFailParse [SelEv.closeSig]).exited = true
    ∧ ((recvLoop nilFailParse [SelEv.closeSig]).closedChans).count StreamChan.inCh = 1
    ∧ (recvLoop nilFailParse ([] : List (SelEv Unit))).closedChans = []
    ∧ (acceptRun [AEv.conn]).closedChans = [] :=
  ⟨rfl,
   (c2_feeds_close_amended.1 Unit Unit Unit nilFailParse [SelEv.closeSig]).1 rfl
     StreamChan.inCh,
   (c2_feeds_close_amended.1 Unit Unit Unit nilFailParse []).2 rfl,
   c2_feeds_close_amended.2 [AEv.conn]⟩

/-- C3: classification of accept errors that do implement net.Error,
with the branches tested in the order the code tests them: a timeout
while releasing, or a closed-listener error while closing, terminates
the loop with no emission; otherwise a temporary error is emitted
non-fatal and the loop continues; otherwise the error is emitted
exactly once, wrapped fatal (IsFatal() = true), and the loop
terminates. -/
theorem c3_accept_error_classification (st : SState) (e : AErr)
    (hn : e.isNet = true) :
    (((st = SState.releasing ∧ e.timeout = true) ∨
        (st = SState.closing ∧ isNetCloseError e = true)) →
      handleError st e = ⟨[], some true⟩)
    ∧ (¬(st = SState.releasing ∧ e.timeout = true) →
        ¬(st = SState.closing ∧ isNetCloseError e = true) →
        e.temporary = true →
        handleError st e = ⟨[⟨e, false⟩], some false⟩)
    ∧ (¬(st = SState.releasing ∧ e.timeout = true) →
        ¬(st = SState.closing ∧ isNetCloseError e = true) →
        e.temporary = false →
        handleError st e = ⟨[⟨e, true⟩], some true⟩
          ∧ (Emission.mk e true).isFatal = true) := by
  cases st <;>
    cases ht : e.timeout <;>
      cases hc : isNetCloseError e <;>
        cases htm : e.temporary <;>
          simp_all [handleError, handleErrorCloseStage, handleErrorTempStage]

/-- C3 witness: the classification applied to four concrete errors:
a release-path timeout, a close-path closed-listener error, a
temporary error while accepting, and a hard error while accepting. -/
theorem c3_accept_error_classification_witness :
    handleError SState.releasing e_timeoutR = ⟨[], some true⟩
    ∧ handleError SState.closing e_closeMsg = ⟨[], some true⟩
    ∧ handleError SState.accepting e_temp = ⟨[⟨e_temp, false⟩], some false⟩
    ∧ handleError SState.accepting e_fatal = ⟨[⟨e_fatal, true⟩], some true⟩ :=
  ⟨(c3_accept_error_classification SState.releasing e_timeoutR rfl).1
      (Or.inl ⟨rfl, rfl⟩),
   (c3_accept_error_classification SState.closing e_closeMsg rfl).1
      (Or.inr ⟨rfl, by decide⟩),
   (c3_accept_error_classification SState.accepting e_temp rfl).2.1
      (by decide) (by decide) rfl,
   ((c3_accept_error_classification SState.accepting e_fatal rfl).2.2
      (by decide) (by decide) rfl).1⟩

/-- C6: when handleError receives an error that does not implement
net.Error, the code sends it on the errs channel unwrapped (non-fatal)
but then, lacking a return, goes on to call Timeout(), Error() or
Temporary() on the nil net.Error interface and panics in every server
state — the accept loop does not continue as the claim states. -/
theorem c6_nonnet_error_panics (st : SState) (e : AErr)
    (h : e.isNet = false) :
    handleError st e = ⟨[⟨e, false⟩], none⟩ := by
  cases st <;> simp [handleError, handleErrorCloseStage, handleErrorTempStage, h]

/-- C6 witness: the panic theorem applied to a concrete non-network
error while accepting. -/
theorem c6_nonnet_error_panics_witness :
    e_nonnet.isNet = false
    ∧ handleError SState.accepting e_nonnet = ⟨[⟨e_nonnet, false⟩], none⟩ :=
  ⟨rfl, c6_nonnet_error_panics SState.accepting e_nonnet rfl⟩

/-- Reachability invariant of the server state machine: the listener
handle identity never changes; while the state is idle, accepting or
releasing the listener has not been closed; while the state is closing
the listener has been closed (Close closed it before transitioning). -/
theorem reachable_inv (n : Nat) (s : Srv) (h : Reachable n s) :
    s.socketId = n
    ∧ ((s.st = SState.idle ∨ s.st = SState.accepting ∨ s.st = SState.releasing) →
        s.socketClosed = false)
    ∧ (s.st = SState.closing → s.socketClosed = true) := by
  induction h with
  | init => exact ⟨rfl, fun _ => rfl, fun hc => by cases hc⟩
  | step s a _ ih =>
    obtain ⟨ih1, ih2, ih3⟩ := ih
    obtain ⟨st, sc, dl, m⟩ := s
    cases a <;> cases st <;> cases sc <;>
      simp_all [applyAction, serverClose, serverRelease, initSrv]

/-- A sequence of actions that contains no Close mutation leaves the
listener's open/closed status untouched. -/
theorem applyActions_no_close (acts : List SAction) (s : Srv)
    (h : SAction.closeMut ∉ acts) :
    (applyActions s acts).socketClosed = s.socketClosed := by
  induction acts generalizing s with
  | nil => rfl
  | cons a rest ih =>
    have ha : a ≠ SAction.closeMut := fun hc => h (hc ▸ List.mem_cons_self a rest)
    have hrest : SAction.closeMut ∉ rest := fun hc => h (List.mem_cons_of_mem a hc)
    have hstep : (applyAction s a).socketClosed = s.socketClosed := by
      cases a with
      | acceptEntry => simp only [applyAction]; split <;> rfl
      | acceptExit => rfl
      | closeMut => exact absurd rfl ha
      | releaseMut => simp only [applyAction, serverRelease]; split <;> rfl
    rw [applyActions, ih (applyAction s a) hrest, hstep]

/-- C4 counterexample: the state closing (with the listener already
closed by the first Close) is reachable, is not accepting, and a
further Close invocation does not transition it to closed — the
listener close fails and Close returns leaving the state at closing. -/
theorem c4_close_fast_path_cex :
    Reachable 0 srvClosing
    ∧ srvClosing.st = SState.closing
    ∧ srvClosing.st ≠ SState.accepting
    ∧ (applyAction srvClosing SAction.closeMut).st = SState.closing
    ∧ (applyAction srvClosing SAction.closeMut).st ≠ SState.closed := by
  refine ⟨?_, by decide, by decide, by decide, by decide⟩
  exact Reachable.step _ SAction.closeMut
    (Reachable.step _ SAction.acceptEntry Reachable.init)

/-- C4 (amended): under every atomic action of Accept, Close and
Release the state moves forward in rank only, along the edges
idle→accepting, accepting→{closing,releasing,closed},
{closing,releasing}→closed and the fast path idle→closed; once closed
it never changes; Release invoked when not accepting goes straight to
closed; Close invoked when not accepting goes straight to closed
provided closing the listener succeeds (listener not already closed) —
if the listener close fails, Close leaves the server unchanged. -/
theorem c4_state_forward_amended :
    (∀ (s : Srv) (a : SAction), rank s.st ≤ rank (applyAction s a).st)
    ∧ (∀ (s : Srv) (a : SAction), s.st = SState.closed →
        (applyAction s a).st = SState.closed)
    ∧ (∀ (s : Srv) (a : SAction), s.st ≠ (applyAction s a).st →
        edgeOk s.st (applyAction s a).st = true)
    ∧ (∀ s : Srv, s.st ≠ SState.accepting →
        (serverRelease s).after.st = SState.closed)
    ∧ (∀ s : Srv, s.st ≠ SState.accepting → s.socketClosed = false →
        (serverClose s).after.st = SState.closed)
    ∧ (∀ s : Srv, s.socketClosed = true → (serverClose s).after = s) := by
  refine ⟨fun s a => ?_, fun s a h => ?_, fun s a h => ?_,
    fun s h => ?_, fun s h hsc => ?_, fun s h => ?_⟩ <;>
    obtain ⟨st, sc, dl, m⟩ := s <;>
      first
      | (cases a <;> cases st <;> cases sc <;>
          simp_all [applyAction, serverClose, serverRelease, rank, edgeOk])
      | (cases st <;> cases sc <;>
          simp_all [applyAction, serverClose, serverRelease, rank, edgeOk])

/-- C4 witness: the amended theorem applied at concrete states and
actions, discharging each hypothesis. -/
theorem c4_state_forward_amended_witness :
    rank (initSrv 0).st ≤ rank (applyAction (initSrv 0) SAction.acceptEntry).st
    ∧ (applyAction srvClosedOnce SAction.releaseMut).st = SState.closed
    ∧ edgeOk (initSrv 0).st (applyAction (initSrv 0) SAction.acceptEntry).st = true
    ∧ (serverRelease (initSrv 0)).after.st = SState.closed
    ∧ (serverClose (initSrv 0)).after.st = SState.closed
    ∧ (serverClose srvClosing).after = srvClosing :=
  ⟨c4_state_forward_amended.1 (initSrv 0) SAction.acceptEntry,
   c4_state_forward_amended.2.1 srvClosedOnce SAction.releaseMut rfl,
   c4_state_forward_amended.2.2.1 (initSrv 0) SAction.acceptEntry (by decide),
   c4_state_forward_amended.2.2.2.1 (initSrv 0) (by decide),
   c4_state_forward_amended.2.2.2.2.1 (initSrv 0) (by decide) rfl,
   c4_state_forward_amended.2.2.2.2.2 srvClosing rfl⟩

/-- C8: Release called on a reachable server whose accept loop is in
state accepting does not close the listening socket, records an
immediate deadline on the listener, blocks in waitForState(closed)
before returning, returns exactly the listener handle the server was
constructed with, and the socket stays open across any further actions
that do not include a Close mutation. -/
theorem c8_release_frame (n : Nat) (s : Srv) (hr : Reachable n s)
    (ha : s.st = SState.accepting) :
    (serverRelease s).after.socketClosed = false
    ∧ (serverRelease s).after.deadlineSet = true
    ∧ (serverRelease s).after.st = SState.releasing
    ∧ (serverRelease s).waits = true
    ∧ (serverRelease s).ret = n
    ∧ ∀ acts : List SAction, SAction.closeMut ∉ acts →
        (applyActions (serverRelease s).after acts).socketClosed = false := by
  obtain ⟨hid, hopen, _⟩ := reachable_inv n s hr
  have hsc : s.socketClosed = false := hopen (Or.inr (Or.inl ha))
  have hrel : serverRelease s
      = ⟨s.socketId, ⟨SState.releasing, s.socketClosed, true, s.socketId⟩, true⟩ := by
    simp [serverRelease, ha]
  refine ⟨?_, ?_, ?_, ?_, ?_, fun acts hacts => ?_⟩
  · rw [hrel]; exact hsc
  · rw [hrel]
  · rw [hrel]
  · rw [hrel]
  · rw [hrel]; exact hid
  · rw [applyActions_no_close acts _ hacts, hrel]; exact hsc

/-- C8 witness: the theorem applied to a server constructed with
listener 7 whose accept loop has entered, followed by the accept
loop's own exit. -/
theorem c8_release_frame_witness :
    srvAccepting7.st = SState.accepting
    ∧ (serverRelease srvAccepting7).after.socketClosed = false
    ∧ (serverRelease srvAccepting7).after.deadlineSet = true
    ∧ (serverRelease srvAccepting7).waits = true
    ∧ (serverRelease srvAccepting7).ret = 7
    ∧ (applyActions (serverRelease srvAccepting7).after
        [SAction.acceptExit]).socketClosed = false := by
  have h := c8_release_frame 7 srvAccepting7
    (Reachable.step _ SAction.acceptEntry Reachable.init) rfl
  exact ⟨rfl, h.1, h.2.1, h.2.2.2.1, h.2.2.2.2.1,
    h.2.2.2.2.2 [SAction.acceptExit] (by decide)⟩

/-- C9 counterexample: the state reached by one completed Close from
construction is reachable, but a second Close call on it does not
succeed — closing the already-closed listener fails and the error is
returned, contradicting idempotence as claimed. -/
theorem c9_close_not_idempotent_cex :
    Reachable 0 srvClosedOnce
    ∧ (serverClose srvClosedOnce).res = Except.error SockErr.useOfClosed
    ∧ (serverClose srvClosedOnce).res ≠ Except.ok () := by
  refine ⟨Reachable.step _ SAction.closeMut Reachable.init, rfl, fun h => ?_⟩
  rw [show (serverClose srvClosedOnce).res = Except.error SockErr.useOfClosed
    from rfl] at h
  exact Except.noConfusion h

/-- C9 (amended): Close succeeds exactly when the underlying listener
is not already closed; in that case it closes the listener and returns
only once the server state is closed — immediately when no accept loop
is running, otherwise after transitioning to closing and waiting in
waitForState(closed).  A repeated Close hits the listener-close error
and returns that error instead. -/
theorem c9_close_amended (s : Srv) (h : s.socketClosed = false) :
    (serverClose s).res = Except.ok ()
    ∧ (serverClose s).after.socketClosed = true
    ∧ ((serverClose s).after.st = SState.closed
        ∨ ((serverClose s).waits = true
            ∧ (serverClose s).after.st = SState.closing)) := by
  by_cases hst : s.st = SState.accepting <;> simp [serverClose, h, hst]

/-- C9 witness: the amended theorem applied to the freshly constructed
server. -/
theorem c9_close_amended_witness :
    (initSrv 0).socketClosed = false
    ∧ (serverClose (initSrv 0)).res = Except.ok ()
    ∧ (serverClose (initSrv 0)).after.socketClosed = true :=
  ⟨rfl, (c9_close_amended (initSrv 0) rfl).1, (c9_close_amended (initSrv 0) rfl).2.1⟩

/-- C10: whenever closing the underlying listener fails (the listener
is already closed), Server.Close returns that error immediately: the
server value is unchanged and Close does not wait for the accept loop
to terminate. -/
theorem c10_close_error_path (s : Srv) (h : s.socketClosed = true) :
    (serverClose s).res = Except.error SockErr.useOfClosed
    ∧ (serverClose s).after = s
    ∧ (serverClose s).waits = false := by
  simp [serverClose, h]

/-- C10 witness: the error path applied to the server whose listener a
first Close already closed. -/
theorem c10_close_error_path_witness :
    srvClosedOnce.socketClosed = true
    ∧ (serverClose srvClosedOnce).res = Except.error SockErr.useOfClosed
    ∧ (serverClose srvClosedOnce).after = srvClosedOnce
    ∧ (serverClose srvClosedOnce).waits = false :=
  ⟨rfl, (c10_close_error_path srvClosedOnce rfl).1,
   (c10_close_error_path srvClosedOnce rfl).2.1,
   (c10_close_error_path srvClosedOnce rfl).2.2⟩
